import Mathlib

/-!
Verification development for the result-deduplication and persistence layer
of moabb (src/moabb/analysis/results.py).

The HDF5 store is embedded shallowly: a store is a finite association list
from pipeline digests to pipeline groups; a pipeline group holds its two
string attributes (name, repr) and an association list from dataset codes to
dataset tables; a dataset table holds its creation-time metadata attributes
and the two parallel resizable arrays, modelled as Lean lists growing at the
end. Association lists keep insertion order, matching the store hierarchy;
lookups are by key, as in h5py. Floating-point scalars (score, time,
n_samples) are only stored and retrieved, never computed with, so they are
modelled as rationals. Subject and record ids are natural numbers; the
source applies str(...) both when storing and when querying, modelled by
toString.
-/

namespace MoabbResults

/-- Dataset collaborator: exposes a stable code, a subject list and a session
count (source: the d1.dataset object consulted by Results.add). -/
structure Dataset where
  code : String
  subject_list : List Nat
  n_sessions : Nat
deriving DecidableEq

/-- One evaluation outcome record, as consumed by Results.add: a dict with
keys dataset, id, score, time, n_samples, n_channels. -/
structure Record where
  dataset : Dataset
  id : Nat
  score : Rat
  time : Rat
  n_samples : Rat
  n_channels : Nat
deriving DecidableEq

/-- Pipeline collaborator: identified solely by its textual representation
(the source only ever uses repr(pipeline)). -/
structure Pipeline where
  rep : String
deriving DecidableEq

/-- Digest of a pipeline: the source hashes the UTF-8 encoding of
repr(pipeline) with md5. The hash itself is opaque to every claim; it is
modelled as an injective deterministic function of the representation
string, keeping the properties the source relies on (identical repr gives
identical digest). -/
def get_digest (p : Pipeline) : String :=
  "md5:" ++ p.rep

/-- Payload shape accepted by Results.add for one pipeline: Python passes a
dict (single record), a list of records, or anything else (which the source
rejects). -/
inductive Payload where
  | single (r : Record)
  | recList (rs : List Record)
  | other
deriving DecidableEq

/-- DatasetTable: one dataset-code subgroup of a pipeline group. Attributes
n_subj, n_sessions, channels, columns are stamped at creation; ids and data
are the two parallel resizable arrays (id and data in the HDF5 file). -/
structure DatasetTable where
  n_subj : Nat
  n_sessions : Nat
  channels : Nat
  columns : List String
  ids : List String
  data : List (Rat × Rat × Rat)
deriving DecidableEq

/-- PipelineGroup: one digest-keyed group, with its name and repr attributes
and its dataset-code subgroups in insertion order. -/
structure PipelineGroup where
  name : String
  rep : String
  dsets : List (String × DatasetTable)
deriving DecidableEq

/-- Store: the root of the HDF5 file, digest-keyed pipeline groups in
insertion order. The create_time root attribute is never read by any
operation and is omitted. -/
structure Store where
  groups : List (String × PipelineGroup)
deriving DecidableEq

/-- Empty store, as produced by Results.__init__ for a fresh (or
overwritten) file: no groups at all. -/
def emptyStore : Store := ⟨[]⟩

/-- Association-list lookup by key, first occurrence wins (h5py group member
access f[k]). -/
def alookup {α : Type} : String → List (String × α) → Option α
  | _, [] => none
  | k, kv :: rest => if kv.1 = k then some kv.2 else alookup k rest

/-- Association-list in-place update of every entry with the given key
(h5py mutates the group object held under the key; keys are unique in any
store built by the API, so this matches in-place mutation). -/
def updateAssoc {α : Type} (l : List (String × α)) (k : String) (g : α → α) :
    List (String × α) :=
  l.map fun kv => if kv.1 = k then (kv.1, g kv.2) else kv

/-- Freshly created pipeline group (f.create_group(digest)): no attributes
written yet, no members. -/
def emptyGroup : PipelineGroup := ⟨"", "", []⟩

/-- Dataset table created from the first record of a payload
(ppline_grp.create_group(dname) plus the attribute stamps and the two empty
resizable datasets). -/
def mkTable (d1 : Record) : DatasetTable :=
  { n_subj := d1.dataset.subject_list.length
    n_sessions := d1.dataset.n_sessions
    channels := d1.n_channels
    columns := ["score", "time", "samples"]
    ids := []
    data := [] }

/-- Body of the per-record loop in Results.add: resize both arrays by one
and write str(d.id) and the (score, time, n_samples) triple at the end. -/
def appendRow (t : DatasetTable) (d : Record) : DatasetTable :=
  { t with
    ids := t.ids ++ [toString d.id]
    data := t.data ++ [(d.score, d.time, d.n_samples)] }

/-- The whole per-record loop of Results.add over a payload list, in order. -/
def appendRows (t : DatasetTable) (ds : List Record) : DatasetTable :=
  ds.foldl appendRow t

/-- Error conditions reachable from Results.add: the ValueError raised by
to_list for a payload that is neither dict nor list (the TypeError condition
of the spec taxonomy), and the IndexError from the unguarded dlist[0]. -/
inductive AddError where
  | typeError
  | indexError
deriving DecidableEq

/-- Payload normalization (the inner to_list of Results.add): a dict becomes
a one-element list, a list passes through, anything else raises. -/
def to_list : Payload → Except AddError (List Record)
  | .single r => .ok [r]
  | .recList rs => .ok rs
  | .other => .error .typeError

/-- Create the digest group if absent (if digest not in f.keys():
f.create_group(digest)). -/
def ensureGroup (f : Store) (dg : String) : Store :=
  if (alookup dg f.groups).isSome then f else ⟨f.groups ++ [(dg, emptyGroup)]⟩

/-- Always (re)write the name and repr attributes of the digest group. -/
def setGroupAttrs (f : Store) (dg nm rp : String) : Store :=
  ⟨updateAssoc f.groups dg fun g => { g with name := nm, rep := rp }⟩

/-- Create the dataset-code subgroup from the first record if absent,
stamping its metadata. -/
def ensureDset (f : Store) (dg : String) (d1 : Record) : Store :=
  ⟨updateAssoc f.groups dg fun g =>
    if (alookup d1.dataset.code g.dsets).isSome then g
    else { g with dsets := g.dsets ++ [(d1.dataset.code, mkTable d1)] }⟩

/-- Run the per-record append loop on the table under (digest, code). -/
def appendRowsStore (f : Store) (dg code : String) (ds : List Record) : Store :=
  ⟨updateAssoc f.groups dg fun g =>
    { g with dsets := updateAssoc g.dsets code fun t => appendRows t ds }⟩

/-- One iteration of the pipeline loop in Results.add: ensure the group,
write its attributes, normalize the payload, ensure the dataset table and
append every record. Returns the store as mutated so far together with the
error, if any, since the HDF5 file keeps every mutation made before an
exception. -/
def addEntry (f : Store) (nm : String) (payload : Payload) (p : Pipeline) :
    Store × Option AddError :=
  let dg := get_digest p
  let f2 := setGroupAttrs (ensureGroup f dg) dg nm p.rep
  match to_list payload with
  | .error e => (f2, some e)
  | .ok [] => (f2, some .indexError)
  | .ok (d1 :: rest) =>
    let f3 := ensureDset f2 dg d1
    (appendRowsStore f3 dg d1.dataset.code (d1 :: rest), none)

/-- Results.add over the whole results mapping: process entries in
iteration order, stopping at the first error; pipelines is the name-to-
pipeline-object mapping (total here: a missing name is a caller error
outside every claim). -/
def addAll (f : Store) (entries : List (String × Payload))
    (pipes : String → Pipeline) : Store × Option AddError :=
  match entries with
  | [] => (f, none)
  | (nm, pl) :: rest =>
    match addEntry f nm pl (pipes nm) with
    | (f2, some e) => (f2, some e)
    | (f2, none) => addAll f2 rest pipes

/-- Results._already_computed: digest lookup, then dataset-code lookup, then
a full scan of the id array for str(subject). Pure: it takes the store and
returns a Bool, never a new store. -/
def _already_computed (f : Store) (p : Pipeline) (d : Dataset) (subject : Nat) :
    Bool :=
  match alookup (get_digest p) f.groups with
  | none => false
  | some grp =>
    match alookup d.code grp.dsets with
    | none => false
    | some t => t.ids.contains (toString subject)

/-- Results.not_yet_computed: the dict comprehension keeping exactly the
entries whose pipeline is not already computed. -/
def not_yet_computed (f : Store) (pipelines : List (String × Pipeline))
    (d : Dataset) (subj : Nat) : List (String × Pipeline) :=
  pipelines.filter fun kv => ! _already_computed f kv.2 d subj

/-- Error conditions reachable from Results.to_dataframe: the KeyError from
the group member access p_group[name-string], and the ValueError raised by
pd.concat on an empty list of frames. -/
inductive DfError where
  | keyError
  | emptyConcat
deriving DecidableEq

/-- One output row of Results.to_dataframe. The pipeline column receives the
value of the group member access p_group[the string name], which, when it
exists at all, is a dataset-table member object, not the name attribute. -/
structure Row where
  score : Rat
  time : Rat
  samples : Rat
  id : String
  channels : Nat
  n_sessions : Nat
  dataset : String
  pipeline : DatasetTable
deriving DecidableEq

/-- The frame built for one dataset table inside to_dataframe: one row per
stored record, metadata attributes repeated per row. -/
def dsetRows (dname : String) (t : DatasetTable) (nameV : DatasetTable) :
    List Row :=
  (t.data.zip t.ids).map fun di =>
    { score := di.1.1
      time := di.1.2.1
      samples := di.1.2.2
      id := di.2
      channels := t.channels
      n_sessions := t.n_sessions
      dataset := dname
      pipeline := nameV }

/-- The group loop of Results.to_dataframe: for each pipeline group, first
evaluate p_group[the string name] (a member lookup, raising KeyError when no
member of that name exists: the name attribute lives in .attrs, not among
the members), then collect one frame per dataset member. -/
def storeDfs : List (String × PipelineGroup) → Except DfError (List (List Row))
  | [] => .ok []
  | (_, grp) :: rest =>
    match alookup "name" grp.dsets with
    | none => .error .keyError
    | some nameV =>
      match storeDfs rest with
      | .error e => .error e
      | .ok dfs => .ok ((grp.dsets.map fun kv => dsetRows kv.1 kv.2 nameV) ++ dfs)

/-- Results.to_dataframe: build the per-table frames for every group, then
concatenate; pd.concat raises ValueError when the frame list is empty. -/
def to_dataframe (f : Store) : Except DfError (List Row) :=
  match storeDfs f.groups with
  | .error e => .error e
  | .ok dfs => if dfs.isEmpty then .error .emptyConcat else .ok dfs.flatten

/-! Helper lemmas about the association-list store operations. -/

theorem alookup_nil {α : Type} (k : String) : alookup k ([] : List (String × α)) = none := rfl

theorem alookup_cons {α : Type} (k : String) (kv : String × α) (l : List (String × α)) :
    alookup k (kv :: l) = if kv.1 = k then some kv.2 else alookup k l := rfl

theorem alookup_append_of_some {α : Type} {k : String} {l : List (String × α)} {v : α}
    (m : List (String × α)) (h : alookup k l = some v) :
    alookup k (l ++ m) = some v := by
  induction l with
  | nil => simp [alookup] at h
  | cons kv rest ih =>
    simp only [alookup, List.cons_append] at h ⊢
    split at h
    · simp [*] at h ⊢
    · simp only [*, if_neg]
      exact ih h

theorem alookup_append_of_none {α : Type} {k : String} {l : List (String × α)}
    (m : List (String × α)) (h : alookup k l = none) :
    alookup k (l ++ m) = alookup k m := by
  induction l with
  | nil => simp
  | cons kv rest ih =>
    simp only [alookup, List.cons_append] at h ⊢
    split at h
    · exact absurd h (by simp)
    · simp only [*, if_neg]
      exact ih h

theorem alookup_updateAssoc_self {α : Type} (k : String) (l : List (String × α)) (g : α → α) :
    alookup k (updateAssoc l k g) = (alookup k l).map g := by
  induction l with
  | nil => simp [updateAssoc, alookup]
  | cons kv rest ih =>
    by_cases h : kv.1 = k
    · simp [updateAssoc, alookup, h]
    · simp [updateAssoc, alookup, h] at ih ⊢
      exact ih

theorem alookup_updateAssoc_ne {α : Type} {k' k : String} (l : List (String × α)) (g : α → α)
    (h : k' ≠ k) :
    alookup k' (updateAssoc l k g) = alookup k' l := by
  induction l with
  | nil => simp [updateAssoc, alookup]
  | cons kv rest ih =>
    by_cases hk : kv.1 = k
    · have h2 : ¬ (k = k') := fun hc => h hc.symm
      simp only [updateAssoc, List.map_cons, alookup_cons, hk, if_true, ite_true, h2,
        if_false, ite_false, if_neg h2] at ih ⊢
      exact ih
    · by_cases hk' : kv.1 = k'
      · simp [updateAssoc, alookup, hk, hk', h]
      · simp only [updateAssoc, List.map_cons, alookup_cons, hk, hk', if_neg, ite_false] at ih ⊢
        exact ih

theorem appendRows_cons (t : DatasetTable) (d : Record) (ds : List Record) :
    appendRows t (d :: ds) = appendRows (appendRow t d) ds := rfl

theorem appendRows_ids (t : DatasetTable) (ds : List Record) :
    (appendRows t ds).ids = t.ids ++ ds.map fun d => toString d.id := by
  induction ds generalizing t with
  | nil => simp [appendRows]
  | cons d rest ih =>
    rw [appendRows_cons, ih]
    simp [appendRow]

theorem appendRows_data (t : DatasetTable) (ds : List Record) :
    (appendRows t ds).data = t.data ++ ds.map fun d => (d.score, d.time, d.n_samples) := by
  induction ds generalizing t with
  | nil => simp [appendRows]
  | cons d rest ih =>
    rw [appendRows_cons, ih]
    simp [appendRow]

theorem appendRows_meta (t : DatasetTable) (ds : List Record) :
    (appendRows t ds).n_subj = t.n_subj ∧ (appendRows t ds).n_sessions = t.n_sessions ∧
      (appendRows t ds).channels = t.channels ∧ (appendRows t ds).columns = t.columns := by
  induction ds generalizing t with
  | nil => simp [appendRows]
  | cons d rest ih =>
    rw [appendRows_cons]
    simpa [appendRow] using ih (appendRow t d)

/-- Lookup of the dataset table stored under a digest and a dataset code. -/
def storeTable (f : Store) (dg code : String) : Option DatasetTable :=
  match alookup dg f.groups with
  | none => none
  | some g => alookup code g.dsets

theorem addEntry_other_eq (f : Store) (nm : String) (p : Pipeline) :
    addEntry f nm Payload.other p =
      (setGroupAttrs (ensureGroup f (get_digest p)) (get_digest p) nm p.rep,
        some AddError.typeError) := rfl

theorem addEntry_recList_nil_eq (f : Store) (nm : String) (p : Pipeline) :
    addEntry f nm (Payload.recList []) p =
      (setGroupAttrs (ensureGroup f (get_digest p)) (get_digest p) nm p.rep,
        some AddError.indexError) := rfl

theorem addEntry_single_eq (f : Store) (nm : String) (r : Record) (p : Pipeline) :
    addEntry f nm (Payload.single r) p =
      (appendRowsStore
        (ensureDset (setGroupAttrs (ensureGroup f (get_digest p)) (get_digest p) nm p.rep)
          (get_digest p) r)
        (get_digest p) r.dataset.code [r], none) := rfl

theorem addEntry_recList_cons_eq (f : Store) (nm : String) (d1 : Record) (ds : List Record)
    (p : Pipeline) :
    addEntry f nm (Payload.recList (d1 :: ds)) p =
      (appendRowsStore
        (ensureDset (setGroupAttrs (ensureGroup f (get_digest p)) (get_digest p) nm p.rep)
          (get_digest p) d1)
        (get_digest p) d1.dataset.code (d1 :: ds), none) := rfl

theorem alookup_setGroupAttrs_ensureGroup (f : Store) (dg nm rp : String) :
    ∃ g0 : PipelineGroup, alookup dg (setGroupAttrs (ensureGroup f dg) dg nm rp).groups =
      some { g0 with name := nm, rep := rp } := by
  unfold setGroupAttrs ensureGroup
  by_cases h : (alookup dg f.groups).isSome
  · obtain ⟨g0, hg0⟩ := Option.isSome_iff_exists.mp h
    refine ⟨g0, ?_⟩
    simp only [h, if_true]
    rw [alookup_updateAssoc_self, hg0]
    rfl
  · have hnone : alookup dg f.groups = none := Option.not_isSome_iff_eq_none.mp h
    refine ⟨emptyGroup, ?_⟩
    rw [if_neg h, alookup_updateAssoc_self, alookup_append_of_none _ hnone]
    simp [alookup]

/-! Concrete sample data, following the concrete scenario of the spec. -/

def pipe1 : Pipeline := ⟨"Pipeline(P1)"⟩

def dset1 : Dataset := ⟨"D1", [1, 2, 3, 4, 5], 2⟩

def rec1 : Record := ⟨dset1, 1, 8, 12, 100, 32⟩

/-- The store obtained by appending the single record rec1 for pipeline
name P1. -/
def store1 : Store := (addEntry emptyStore "P1" (Payload.single rec1) pipe1).1

def tbl1 : DatasetTable :=
  { n_subj := 5, n_sessions := 2, channels := 32,
    columns := ["score", "time", "samples"],
    ids := ["1"], data := [(8, 12, 100)] }

def grp1 : PipelineGroup :=
  { name := "P1", rep := "Pipeline(P1)", dsets := [("D1", tbl1)] }

/-- Sanity anchor: the concrete one-row store in explicit form. -/
theorem store1_eq : store1 = ⟨[("md5:Pipeline(P1)", grp1)]⟩ := by decide

/-! Claim theorems. -/

/-- Claim C2: the two parallel sequences of a dataset table grow in
lockstep. Appending records to a freshly created table stores exactly the
string forms of the ids and the (score, time, n_samples) triples in append
order (hence both lengths equal the number of records appended), and each
single appended record grows both arrays by exactly one element. -/
theorem C2_parallel_arrays (d1 : Record) (rs : List Record) (t : DatasetTable) (r : Record) :
    ((appendRows (mkTable d1) rs).ids = rs.map fun d => toString d.id) ∧
    ((appendRows (mkTable d1) rs).data = rs.map fun d => (d.score, d.time, d.n_samples)) ∧
    (appendRows (mkTable d1) rs).ids.length = rs.length ∧
    (appendRows (mkTable d1) rs).data.length = rs.length ∧
    (appendRow t r).ids.length = t.ids.length + 1 ∧
    (appendRow t r).data.length = t.data.length + 1 := by
  refine ⟨?_, ?_, ?_, ?_, ?_, ?_⟩ <;>
    simp [appendRows_ids, appendRows_data, mkTable, appendRow]

/-- Claim C7: flattening a freshly created, never-appended store fails with
the empty-concatenation error instead of returning an empty table. -/
theorem C7_empty_store_flatten_fails :
    to_dataframe emptyStore = Except.error DfError.emptyConcat := rfl

/-- Claim C10: when a payload is invalid, the type error is raised only
after the digest group has been created and its name and repr attributes
rewritten, so the store is mutated for that pipeline even though the call
fails. -/
theorem C10_type_error_not_atomic (f : Store) (nm : String) (p : Pipeline) :
    (addEntry f nm Payload.other p).2 = some AddError.typeError ∧
    ∃ g, alookup (get_digest p) (addEntry f nm Payload.other p).1.groups = some g ∧
      g.name = nm ∧ g.rep = p.rep := by
  constructor
  · rw [addEntry_other_eq]
  · obtain ⟨g0, hg0⟩ := alookup_setGroupAttrs_ensureGroup f (get_digest p) nm p.rep
    exact ⟨{ g0 with name := nm, rep := p.rep }, by rw [addEntry_other_eq]; exact hg0, rfl, rfl⟩

theorem addAll_cons_eq (f : Store) (nm : String) (pl : Payload)
    (rest : List (String × Payload)) (pipes : String → Pipeline) :
    addAll f ((nm, pl) :: rest) pipes =
      match addEntry f nm pl (pipes nm) with
      | (f2, some e) => (f2, some e)
      | (f2, none) => addAll f2 rest pipes := rfl

/-- Skipping a head entry that is not the invalid shape when searching for
an invalid payload. -/
theorem exists_other_cons_of_ne (nm : String) (pl : Payload)
    (rest : List (String × Payload)) (hne : pl ≠ Payload.other) :
    ((∃ kv ∈ (nm, pl) :: rest, kv.2 = Payload.other) ↔
      ∃ kv ∈ rest, kv.2 = Payload.other) := by
  constructor
  · rintro ⟨kv, hm, he⟩
    rcases List.mem_cons.mp hm with h1 | h2
    · subst h1
      exact absurd he hne
    · exact ⟨kv, h2, he⟩
  · rintro ⟨kv, hm, he⟩
    exact ⟨kv, List.mem_cons_of_mem _ hm, he⟩

/-- Under the proviso that no payload is the empty list, a whole add call
raises the type error exactly when some payload has the invalid shape. -/
theorem addAll_typeError_iff (pipes : String → Pipeline) :
    ∀ (ents : List (String × Payload)) (f : Store),
      (∀ kv ∈ ents, kv.2 ≠ Payload.recList []) →
      ((addAll f ents pipes).2 = some AddError.typeError ↔
        ∃ kv ∈ ents, kv.2 = Payload.other) := by
  intro ents
  induction ents with
  | nil =>
    intro f _
    simp [addAll]
  | cons ent rest ih =>
    intro f h
    obtain ⟨nm, pl⟩ := ent
    have htail : ∀ kv ∈ rest, kv.2 ≠ Payload.recList [] :=
      fun kv hm => h kv (List.mem_cons_of_mem _ hm)
    cases pl with
    | single r =>
      rw [addAll_cons_eq, addEntry_single_eq]
      exact (ih _ htail).trans (exists_other_cons_of_ne nm _ rest (by simp)).symm
    | recList rs =>
      cases rs with
      | nil => exact absurd rfl (h (nm, Payload.recList []) (List.mem_cons_self _ _))
      | cons d ds =>
        rw [addAll_cons_eq, addEntry_recList_cons_eq]
        exact (ih _ htail).trans (exists_other_cons_of_ne nm _ rest (by simp)).symm
    | other =>
      rw [addAll_cons_eq, addEntry_other_eq]
      exact ⟨fun _ => ⟨(nm, Payload.other), List.mem_cons_self _ _, rfl⟩, fun _ => rfl⟩

/-- An empty-list payload somewhere in the entries forces the whole add
call to fail with some error. -/
theorem addAll_err_of_empty_payload (pipes : String → Pipeline) :
    ∀ (ents : List (String × Payload)) (f : Store),
      (∃ kv ∈ ents, kv.2 = Payload.recList []) →
      ∃ e, (addAll f ents pipes).2 = some e := by
  intro ents
  induction ents with
  | nil =>
    intro f h
    simp at h
  | cons ent rest ih =>
    intro f h
    obtain ⟨nm, pl⟩ := ent
    rcases hE : addEntry f nm pl (pipes nm) with ⟨f2, e?⟩
    cases e? with
    | some e =>
      refine ⟨e, ?_⟩
      rw [addAll_cons_eq, hE]
    | none =>
      rw [addAll_cons_eq, hE]
      apply ih
      rcases h with ⟨kv, hkv, hkve⟩
      rcases List.mem_cons.mp hkv with heq | hmem
      · exfalso
        subst heq
        have hpl : pl = Payload.recList [] := hkve
        rw [hpl, addEntry_recList_nil_eq] at hE
        exact absurd (congrArg Prod.snd hE) (by simp)
      · exact ⟨kv, hmem, hkve⟩

/-- Claim C1 (code evaluation at the failing input): the store holding
exactly one recorded row, created by a successful append, makes
to_dataframe fail with a KeyError: the source reads the name through a
group member access instead of the attribute, and no group member of that
name exists. -/
theorem C1_flatten_fails_on_nonempty_store :
    storeTable store1 "md5:Pipeline(P1)" "D1" = some tbl1 ∧
    tbl1.ids.length = 1 ∧
    to_dataframe store1 = Except.error DfError.keyError :=
  ⟨by decide, by decide, rfl⟩

/-- Claim C9: an append call in which some pipeline's payload is the empty
list of records always fails with an error instead of succeeding as a
no-op, and processing the empty-list payload itself yields precisely the
out-of-bounds error of the unguarded first-record access. -/
theorem C9_empty_payload_fails (f : Store) (ents : List (String × Payload))
    (pipes : String → Pipeline) (h : ∃ kv ∈ ents, kv.2 = Payload.recList []) :
    (∃ e, (addAll f ents pipes).2 = some e) ∧
    ∀ f2 nm p, (addEntry f2 nm (Payload.recList []) p).2 = some AddError.indexError := by
  refine ⟨addAll_err_of_empty_payload pipes ents f h, fun f2 nm p => ?_⟩
  rw [addEntry_recList_nil_eq]

/-- Witness for C9 at a concrete input. -/
theorem C9_witness :
    (∃ kv ∈ ([("A", Payload.recList [])] : List (String × Payload)),
      kv.2 = Payload.recList []) ∧
    ((∃ e, (addAll emptyStore [("A", Payload.recList [])] fun _ => pipe1).2 = some e) ∧
      ∀ f2 nm p, (addEntry f2 nm (Payload.recList []) p).2 = some AddError.indexError) :=
  ⟨⟨("A", Payload.recList []), by decide, rfl⟩,
    C9_empty_payload_fails emptyStore [("A", Payload.recList [])] (fun _ => pipe1)
      ⟨("A", Payload.recList []), by decide, rfl⟩⟩

/-- Claim C6 counterexample: an append call whose first payload is the
empty list and whose second payload has the invalid shape fails with the
out-of-bounds error, not the type error, although some payload is neither
a single record nor a list of records; so the claimed equivalence fails as
stated. -/
theorem C6_counterexample :
    (("B", Payload.other) ∈
      ([("A", Payload.recList []), ("B", Payload.other)] : List (String × Payload))) ∧
    (addAll emptyStore [("A", Payload.recList []), ("B", Payload.other)]
      fun _ => pipe1).2 = some AddError.indexError ∧
    ¬ (addAll emptyStore [("A", Payload.recList []), ("B", Payload.other)]
      fun _ => pipe1).2 = some AddError.typeError := by decide

/-- Claim C6 as amended: payloads are normalized by to_list (a single
record becomes a one-element list, a list passes through, anything else
raises the type error), and, provided no payload is an empty list (an
empty list instead preempts the scan with the out-of-bounds error), the
append call fails with the type error exactly when some payload is neither
a single record nor a list of records. -/
theorem C6_type_error_iff (f : Store) (ents : List (String × Payload))
    (pipes : String → Pipeline) (h : ∀ kv ∈ ents, kv.2 ≠ Payload.recList []) :
    ((addAll f ents pipes).2 = some AddError.typeError ↔
      ∃ kv ∈ ents, kv.2 = Payload.other) ∧
    (∀ r, to_list (Payload.single r) = Except.ok [r]) ∧
    (∀ rs, to_list (Payload.recList rs) = Except.ok rs) ∧
    to_list Payload.other = Except.error AddError.typeError :=
  ⟨addAll_typeError_iff pipes ents f h, fun _ => rfl, fun _ => rfl, rfl⟩

/-- Witness for C6 at a concrete input. -/
theorem C6_witness :
    (∀ kv ∈ ([("A", Payload.other)] : List (String × Payload)),
      kv.2 ≠ Payload.recList []) ∧
    ((addAll emptyStore [("A", Payload.other)] fun _ => pipe1).2 =
        some AddError.typeError ↔
      ∃ kv ∈ ([("A", Payload.other)] : List (String × Payload)),
        kv.2 = Payload.other) :=
  ⟨by decide,
    (C6_type_error_iff emptyStore [("A", Payload.other)] (fun _ => pipe1) (by decide)).1⟩

/-- Claim C3: the membership check is a digest lookup, then a dataset-code
lookup, then a scan of the id array for the string form of the subject;
each absent level yields false. The check is a pure function of the store
(it returns only a Bool, so it cannot mutate the store). -/
theorem C3_already_computed_cases (f : Store) (p : Pipeline) (d : Dataset) (subj : Nat) :
    (alookup (get_digest p) f.groups = none → _already_computed f p d subj = false) ∧
    (∀ g, alookup (get_digest p) f.groups = some g → alookup d.code g.dsets = none →
      _already_computed f p d subj = false) ∧
    (∀ g t, alookup (get_digest p) f.groups = some g → alookup d.code g.dsets = some t →
      (_already_computed f p d subj = true ↔ toString subj ∈ t.ids)) := by
  unfold _already_computed
  refine ⟨fun h => by rw [h], fun g hg hd => ?_, fun g t hg ht => ?_⟩
  · rw [hg]
    dsimp only
    rw [hd]
  · rw [hg]
    dsimp only
    rw [ht]
    exact List.elem_iff

/-- Witness for C3 at a concrete store holding one row. -/
theorem C3_witness :
    (alookup (get_digest pipe1) store1.groups = some grp1 ∧
      alookup dset1.code grp1.dsets = some tbl1) ∧
    (_already_computed store1 pipe1 dset1 1 = true ↔ toString 1 ∈ tbl1.ids) :=
  ⟨⟨by decide, by decide⟩,
    (C3_already_computed_cases store1 pipe1 dset1 1).2.2 grp1 tbl1 (by decide) (by decide)⟩

/-- Claim C4: after a successful append of a single record for one
pipeline into a fresh store, the membership check answers true for that
record's subject when queried through any pipeline object with the same
textual representation, and false for every subject whose string form
differs from the appended one. -/
theorem C4_append_then_query (p q : Pipeline) (nm : String) (r : Record) (s : Nat)
    (hq : q.rep = p.rep) :
    (addEntry emptyStore nm (Payload.single r) p).2 = none ∧
    _already_computed (addEntry emptyStore nm (Payload.single r) p).1 q r.dataset r.id = true ∧
    (toString s ≠ toString r.id →
      _already_computed (addEntry emptyStore nm (Payload.single r) p).1 q r.dataset s = false) := by
  have hdg : get_digest q = get_digest p := by simp [get_digest, hq]
  have hstore : (addEntry emptyStore nm (Payload.single r) p).1 =
      ⟨[(get_digest p,
        { name := nm, rep := p.rep,
          dsets := [(r.dataset.code, appendRows (mkTable r) [r])] })]⟩ := by
    rw [addEntry_single_eq]
    simp [ensureGroup, setGroupAttrs, ensureDset, appendRowsStore, updateAssoc, alookup,
      emptyStore, emptyGroup]
  refine ⟨by rw [addEntry_single_eq], ?_, fun hne => ?_⟩
  · rw [hstore]
    simp [_already_computed, alookup, hdg, appendRows, appendRow, mkTable]
  · rw [hstore]
    simp [_already_computed, alookup, hdg, appendRows, appendRow, mkTable, hne]

/-- Witness for C4 at a concrete input. -/
theorem C4_witness :
    (pipe1.rep = pipe1.rep ∧ toString 2 ≠ toString rec1.id) ∧
    ((addEntry emptyStore "P1" (Payload.single rec1) pipe1).2 = none ∧
      _already_computed (addEntry emptyStore "P1" (Payload.single rec1) pipe1).1 pipe1
        rec1.dataset rec1.id = true ∧
      _already_computed (addEntry emptyStore "P1" (Payload.single rec1) pipe1).1 pipe1
        rec1.dataset 2 = false) :=
  ⟨⟨rfl, by decide⟩,
    ⟨(C4_append_then_query pipe1 pipe1 "P1" rec1 2 rfl).1,
      (C4_append_then_query pipe1 pipe1 "P1" rec1 2 rfl).2.1,
      (C4_append_then_query pipe1 pipe1 "P1" rec1 2 rfl).2.2 (by decide)⟩⟩

theorem length_filter_not_add {α : Type} (l : List α) (p : α → Bool) :
    (l.filter fun a => ! p a).length + (l.filter p).length = l.length := by
  induction l with
  | nil => rfl
  | cons a rest ih =>
    by_cases h : p a <;> simp [List.filter_cons, h] <;> omega

theorem count_filter_not {α : Type} [BEq α] [LawfulBEq α] (l : List α) (p : α → Bool) (a : α) :
    (l.filter fun x => ! p x).count a = if p a then 0 else l.count a := by
  induction l with
  | nil => simp
  | cons b rest ih =>
    by_cases hb : p b
    · rw [List.filter_cons, if_neg (by simp [hb]), ih]
      by_cases hab : a = b
      · subst hab
        simp [hb]
      · have hba : ¬ b = a := fun h => hab h.symm
        simp [List.count_cons, hab, hba]
    · rw [List.filter_cons, if_pos (by simp [hb]), List.count_cons, ih]
      by_cases hab : a = b
      · subst hab
        simp [hb, List.count_cons]
      · have hba : ¬ b = a := fun h => hab h.symm
        simp [List.count_cons, hab, hba]

/-- Claim C5: not_yet_computed is the pure sub-mapping of entries whose
pipeline is not already computed: an entry belongs to the result exactly
when it belongs to the input and is not computed, its multiplicity is
preserved (so distinct input entries appear exactly once), and the result
size plus the number of computed entries equals the input size. The
operation returns only the sub-mapping, so the store is untouched. -/
theorem C5_not_yet_computed_exact_filter (f : Store) (pls : List (String × Pipeline))
    (d : Dataset) (s : Nat) (kv : String × Pipeline) :
    (kv ∈ not_yet_computed f pls d s ↔
      kv ∈ pls ∧ _already_computed f kv.2 d s = false) ∧
    ((not_yet_computed f pls d s).length +
      (pls.filter fun x => _already_computed f x.2 d s).length = pls.length) ∧
    ((not_yet_computed f pls d s).count kv =
      if _already_computed f kv.2 d s then 0 else pls.count kv) := by
  refine ⟨?_, ?_, ?_⟩
  · simp [not_yet_computed, List.mem_filter]
  · exact length_filter_not_add pls _
  · exact count_filter_not pls _ kv

theorem storeTable_setGroupAttrs (f : Store) (dg0 nm rp dg code : String) :
    storeTable (setGroupAttrs f dg0 nm rp) dg code = storeTable f dg code := by
  unfold storeTable setGroupAttrs
  by_cases h : dg = dg0
  · subst h
    rw [alookup_updateAssoc_self]
    cases halo : alookup dg f.groups <;> simp [halo]
  · rw [alookup_updateAssoc_ne _ _ h]

theorem storeTable_ensureGroup (f : Store) (dg0 dg code : String) (t : DatasetTable)
    (h : storeTable f dg code = some t) :
    storeTable (ensureGroup f dg0) dg code = some t := by
  unfold ensureGroup
  by_cases hs : (alookup dg0 f.groups).isSome
  · rw [if_pos hs]
    exact h
  · rw [if_neg hs]
    unfold storeTable at h ⊢
    rcases halo : alookup dg f.groups with _ | g
    · rw [halo] at h
      simp at h
    · rw [halo] at h
      rw [alookup_append_of_some _ halo]
      exact h

theorem storeTable_ensureDset (f : Store) (dg0 : String) (d1 : Record) (dg code : String)
    (t : DatasetTable) (h : storeTable f dg code = some t) :
    storeTable (ensureDset f dg0 d1) dg code = some t := by
  unfold ensureDset
  unfold storeTable at h ⊢
  by_cases hdg : dg = dg0
  · subst hdg
    rcases halo : alookup dg f.groups with _ | g
    · rw [halo] at h
      simp at h
    · rw [halo] at h
      have h2 : alookup code g.dsets = some t := h
      rw [alookup_updateAssoc_self, halo]
      simp only [Option.map_some']
      by_cases hin : (alookup d1.dataset.code g.dsets).isSome
      · rw [if_pos hin]
        exact h2
      · rw [if_neg hin]
        have hnone : alookup d1.dataset.code g.dsets = none :=
          Option.not_isSome_iff_eq_none.mp hin
        by_cases hc : code = d1.dataset.code
        · subst hc
          rw [h2] at hnone
          exact absurd hnone (by simp)
        · dsimp only
          rw [alookup_append_of_some _ h2]
  · rw [alookup_updateAssoc_ne _ _ hdg]
    exact h

theorem storeTable_appendRowsStore (f : Store) (dg0 c0 : String) (ds : List Record)
    (dg code : String) (t : DatasetTable) (h : storeTable f dg code = some t) :
    ∃ t2, storeTable (appendRowsStore f dg0 c0 ds) dg code = some t2 ∧
      t2.n_subj = t.n_subj ∧ t2.n_sessions = t.n_sessions ∧
      t2.channels = t.channels ∧ t2.columns = t.columns := by
  unfold appendRowsStore
  unfold storeTable at h ⊢
  by_cases hdg : dg = dg0
  · subst hdg
    rcases halo : alookup dg f.groups with _ | g
    · rw [halo] at h
      simp at h
    · rw [halo] at h
      have h2 : alookup code g.dsets = some t := h
      rw [alookup_updateAssoc_self, halo]
      simp only [Option.map_some']
      by_cases hc : code = c0
      · subst hc
        rw [alookup_updateAssoc_self, h2]
        obtain ⟨m1, m2, m3, m4⟩ := appendRows_meta t ds
        exact ⟨appendRows t ds, rfl, m1, m2, m3, m4⟩
      · rw [alookup_updateAssoc_ne _ _ hc]
        exact ⟨t, h2, rfl, rfl, rfl, rfl⟩
  · rw [alookup_updateAssoc_ne _ _ hdg]
    exact ⟨t, h, rfl, rfl, rfl, rfl⟩

theorem alookup_ensureDset_self (f : Store) (dg : String) (d1 : Record) (g : PipelineGroup)
    (h : alookup dg f.groups = some g) :
    ∃ g2, alookup dg (ensureDset f dg d1).groups = some g2 ∧
      g2.name = g.name ∧ g2.rep = g.rep := by
  unfold ensureDset
  rw [alookup_updateAssoc_self, h]
  simp only [Option.map_some']
  by_cases c : (alookup d1.dataset.code g.dsets).isSome
  · refine ⟨g, ?_, rfl, rfl⟩
    rw [if_pos c]
  · refine ⟨{ g with dsets := g.dsets ++ [(d1.dataset.code, mkTable d1)] }, ?_, rfl, rfl⟩
    rw [if_neg c]

theorem alookup_appendRowsStore_self (f : Store) (dg c0 : String) (ds : List Record)
    (g : PipelineGroup) (h : alookup dg f.groups = some g) :
    alookup dg (appendRowsStore f dg c0 ds).groups =
      some { g with dsets := updateAssoc g.dsets c0 fun t => appendRows t ds } := by
  unfold appendRowsStore
  rw [alookup_updateAssoc_self, h]
  rfl

/-- Claim C8: every append (re)writes the digest group's name and repr
attributes from the current arguments, while the metadata attributes of
every dataset table already present in the store (subject count, session
count, channel count, column names) survive the append unchanged, whatever
the payload carries. -/
theorem C8_attrs_lastwin_metadata_frozen (f : Store) (nm : String) (pl : Payload)
    (p : Pipeline) :
    (∃ g, alookup (get_digest p) (addEntry f nm pl p).1.groups = some g ∧
      g.name = nm ∧ g.rep = p.rep) ∧
    (∀ dg code t, storeTable f dg code = some t →
      ∃ t2, storeTable (addEntry f nm pl p).1 dg code = some t2 ∧
        t2.n_subj = t.n_subj ∧ t2.n_sessions = t.n_sessions ∧
        t2.channels = t.channels ∧ t2.columns = t.columns) := by
  have hbase : ∀ dg code t, storeTable f dg code = some t →
      storeTable (setGroupAttrs (ensureGroup f (get_digest p)) (get_digest p) nm p.rep)
        dg code = some t := by
    intro dg code t h
    rw [storeTable_setGroupAttrs]
    exact storeTable_ensureGroup f (get_digest p) dg code t h
  have hattr := alookup_setGroupAttrs_ensureGroup f (get_digest p) nm p.rep
  cases pl with
  | other =>
    rw [addEntry_other_eq]
    obtain ⟨g0, hg0⟩ := hattr
    exact ⟨⟨_, hg0, rfl, rfl⟩,
      fun dg code t h => ⟨t, hbase dg code t h, rfl, rfl, rfl, rfl⟩⟩
  | single r =>
    rw [addEntry_single_eq]
    constructor
    · obtain ⟨g0, hg0⟩ := hattr
      obtain ⟨g2, hg2, hn, hr⟩ := alookup_ensureDset_self _ _ r _ hg0
      have h3 := alookup_appendRowsStore_self _ (get_digest p) r.dataset.code [r] _ hg2
      exact ⟨_, h3, hn, hr⟩
    · intro dg code t h
      exact storeTable_appendRowsStore _ _ _ _ dg code t
        (storeTable_ensureDset _ _ r dg code t (hbase dg code t h))
  | recList rs =>
    cases rs with
    | nil =>
      rw [addEntry_recList_nil_eq]
      obtain ⟨g0, hg0⟩ := hattr
      exact ⟨⟨_, hg0, rfl, rfl⟩,
        fun dg code t h => ⟨t, hbase dg code t h, rfl, rfl, rfl, rfl⟩⟩
    | cons d1 ds =>
      rw [addEntry_recList_cons_eq]
      constructor
      · obtain ⟨g0, hg0⟩ := hattr
        obtain ⟨g2, hg2, hn, hr⟩ := alookup_ensureDset_self _ _ d1 _ hg0
        have h3 := alookup_appendRowsStore_self _ (get_digest p) d1.dataset.code (d1 :: ds) _ hg2
        exact ⟨_, h3, hn, hr⟩
      · intro dg code t h
        exact storeTable_appendRowsStore _ _ _ _ dg code t
          (storeTable_ensureDset _ _ d1 dg code t (hbase dg code t h))

/-- A second dataset object with the same code but conflicting metadata,
and a record carrying it, for exercising metadata freezing. -/
def dset2 : Dataset := ⟨"D1", [1, 2], 9⟩

def rec2 : Record := ⟨dset2, 3, 1, 2, 50, 8⟩

/-- Witness for C8 at a concrete input: appending a record with conflicting
metadata for the same digest and dataset code leaves the stored metadata
untouched. -/
theorem C8_witness :
    storeTable store1 "md5:Pipeline(P1)" "D1" = some tbl1 ∧
    ∃ t2, storeTable (addEntry store1 "P1b" (Payload.single rec2) pipe1).1
        "md5:Pipeline(P1)" "D1" = some t2 ∧
      t2.n_subj = tbl1.n_subj ∧ t2.n_sessions = tbl1.n_sessions ∧
      t2.channels = tbl1.channels ∧ t2.columns = tbl1.columns :=
  ⟨by decide,
    (C8_attrs_lastwin_metadata_frozen store1 "P1b" (Payload.single rec2) pipe1).2
      "md5:Pipeline(P1)" "D1" tbl1 (by decide)⟩

end MoabbResults
